import Mathlib

/-!
Shallow embedding of the GroupMe automation poller
(`src/services/builderprime-poller.ts`, final revision, together with
`src/services/groupme.ts`), and proofs about its behavior.

Epoch instants are modelled as `Int` milliseconds.  JavaScript `Set<number>`
becomes `Finset Nat`; `Map<number, OpportunityData>` rebuilt by
`clear()` + `forEach set` becomes a plain list of records with a
last-write-wins lookup; nullable string fields become `Option String`
(a JS truthiness test on such a field is "is `some` and non-empty").
-/

namespace GroupMeAutomation

/-- One scheduled appointment as returned by the meetings endpoint
(interface `BuilderPrimeMeeting`).  `clientFirstName`, `clientLastName` and
`location` are optional at runtime and are tested for truthiness by the
formatter, so they are modelled as `Option String`. -/
structure BuilderPrimeMeeting where
  id : Nat
  title : String
  startDateTime : Int
  createdDate : Int
  employeeFirstName : String
  employeeLastName : String
  clientFirstName : Option String
  clientLastName : Option String
  meetingTypeName : String
  location : Option String
  opportunityId : Nat
  clientId : Nat
  deriving DecidableEq

/-- One client/opportunity record from the clients endpoint
(interface `OpportunityData`); the lead-setter name fields are nullable. -/
structure OpportunityData where
  id : Nat
  firstName : String
  lastName : String
  leadSetterFirstName : Option String
  leadSetterLastName : Option String
  salesPersonFirstName : Option String
  salesPersonLastName : Option String
  deriving DecidableEq

/-- JS truthiness of a `string | null` value: truthy exactly when it is
present and non-empty. -/
def strTruthy : Option String → Bool
  | none => false
  | some s => !(s == "")

/-! ## Notification sink (`sendGroupMeMessage` in `groupme.ts`) -/

/-- Outcome of one `sendGroupMeMessage` call: the message was posted, the
send was skipped because the bot id is unconfigured, or the underlying
HTTP call failed and the function re-threw the error. -/
inductive SendOutcome where
  | sent
  | skipped
  | threw
  deriving DecidableEq

/-- Does `pat` occur as a contiguous subsequence of the character list? -/
def listContainsSeq (pat : List Char) : List Char → Bool
  | [] => List.isPrefixOf pat []
  | c :: rest => List.isPrefixOf pat (c :: rest) || listContainsSeq pat rest

/-- Case-insensitive substring test, modelling `/your_groupme_bot_id_here/i.test botId`. -/
def containsCI (s pat : String) : Bool :=
  listContainsSeq (pat.data.map Char.toLower) (s.data.map Char.toLower)

/-- The guard `!botId || /your_groupme_bot_id_here/i.test(botId)` in
`sendGroupMeMessage`: the env var is absent, empty (both falsy), or still
holds the placeholder text. -/
def isPlaceholderBot : Option String → Bool
  | none => true
  | some botId => botId == "" || containsCI botId "your_groupme_bot_id_here"

/-- `sendGroupMeMessage`, with the network abstracted: `netOk` tells whether
the POST to the GroupMe bot endpoint succeeds.  An unconfigured bot id
short-circuits to a skipped result before any network call; a failed POST
is logged and re-thrown (`threw`). -/
def sendGroupMeMessage (botId : Option String) (netOk : Bool) : SendOutcome :=
  if isPlaceholderBot botId then .skipped
  else if netOk then .sent else .threw

/-! ## Party resolver cache (`fetchOpportunities` / `fetchLeadSetter`) -/

/-- `CACHE_DURATION_MS = 5 * 60 * 1000`. -/
def CACHE_DURATION_MS : Int := 5 * 60 * 1000

/-- The staleness test `now - lastOpportunitiesFetch > CACHE_DURATION_MS`
guarding the cache refresh in `fetchLeadSetter`. -/
def shouldRefresh (now lastFetch : Int) : Bool :=
  decide (now - lastFetch > CACHE_DURATION_MS)

/-- `fetchOpportunities`, with the HTTP layer abstracted: `none` stands for
a transport error (the `catch` logs and returns `[]`), `some opps` for a
successful response body. -/
def fetchOpportunities : Option (List OpportunityData) → List OpportunityData
  | none => []
  | some opps => opps

/-- Mutable state of the opportunities cache: the map contents (entry list,
later writes win) and `lastOpportunitiesFetch`. -/
structure ResolverState where
  cache : List OpportunityData
  lastFetch : Int
  deriving DecidableEq

/-- Lookup in the cache map keyed by record id; the cache was populated by
`forEach (opp => set opp.id opp)`, so a later record with the same id
overwrites an earlier one. -/
def cacheLookup (cache : List OpportunityData) (clientId : Nat) : Option OpportunityData :=
  cache.reverse.find? (fun opp => opp.id == clientId)

/-- The lookup half of `fetchLeadSetter`: take the cache entry for the
meeting's `clientId` and return the lead-setter name pair when both fields
are truthy, else no resolution. -/
def lookupLeadSetter (cache : List OpportunityData) (clientId : Nat) :
    Option (String × String) :=
  match cacheLookup cache clientId with
  | none => none
  | some opp =>
    match opp.leadSetterFirstName, opp.leadSetterLastName with
    | some f, some l => if f = "" ∨ l = "" then none else some (f, l)
    | _, _ => none

/-- `fetchLeadSetter clientId`: refresh the cache when stale
(`clear()` then re-insert whatever the roster fetch returned, and stamp
`lastOpportunitiesFetch = now`), then answer from the (possibly refreshed)
cache.  `fetchResult` is the abstracted roster fetch outcome. -/
def fetchLeadSetter (st : ResolverState) (now : Int)
    (fetchResult : Option (List OpportunityData)) (clientId : Nat) :
    ResolverState × Option (String × String) :=
  let st' := if shouldRefresh now st.lastFetch
    then { cache := fetchOpportunities fetchResult, lastFetch := now }
    else st
  (st', lookupLeadSetter st'.cache clientId)

/-! ## Message formatter (`formatMeetingMessage`) -/

/-- Replace the first occurrence of `pat` in a character list, as JS
`String.prototype.replace` does with a string pattern. -/
def listReplaceFirst (pat rep : List Char) : List Char → List Char
  | [] => []
  | c :: rest =>
    if List.isPrefixOf pat (c :: rest) then rep ++ (c :: rest).drop pat.length
    else c :: listReplaceFirst pat rep rest

/-- JS `s.replace(pat, rep)` with a string pattern: only the first
occurrence is replaced. -/
def replaceFirst (s pat rep : String) : String :=
  ⟨listReplaceFirst pat.data rep.data s.data⟩

/-- The title fallback `title.replace(' - Estimate', '').replace(' - ', ' ')`. -/
def strippedTitle (title : String) : String :=
  replaceFirst (replaceFirst title " - Estimate" "") " - " " "

/-- The `customerName` binding of `formatMeetingMessage`: the client
first/last names joined when both are truthy, else the stripped title. -/
def customerName (m : BuilderPrimeMeeting) : String :=
  if strTruthy m.clientFirstName && strTruthy m.clientLastName then
    m.clientFirstName.getD "" ++ " " ++ m.clientLastName.getD ""
  else strippedTitle m.title

/-- The `csrName` binding of `formatMeetingMessage`: the resolved
lead-setter name, else the literal fallback. -/
def csrName (cache : List OpportunityData) (m : BuilderPrimeMeeting) : String :=
  match lookupLeadSetter cache m.clientId with
  | some (f, l) => f ++ " " ++ l
  | none => "Unknown CSR"

/-- Assembly of the outgoing message text from its parts, with the optional
location suffix. -/
def messageTemplate (csr customer dateStr timeStr typeName : String)
    (location : Option String) : String :=
  let base := "📅 Appointment Set by " ++ csr ++ ": " ++ customer ++ " — "
    ++ dateStr ++ " @ " ++ timeStr ++ " — " ++ typeName
  match location with
  | some loc => base ++ " — Location: " ++ loc
  | none => base

/-- `formatMeetingMessage`, with the locale date/time renderers abstracted
as `fmtDate`/`fmtTime` applied to `startDateTime`.  The lookup half of
`fetchLeadSetter` is taken against the current cache contents. -/
def formatMeetingMessage (fmtDate fmtTime : Int → String)
    (cache : List OpportunityData) (m : BuilderPrimeMeeting) : String :=
  messageTemplate (csrName cache m) (customerName m)
    (fmtDate m.startDateTime) (fmtTime m.startDateTime) m.meetingTypeName m.location

/-! ## Poll cycle (`pollForNewMeetings`) -/

/-- `24 * 60 * 60 * 1000` milliseconds, as written in the chunking loop. -/
def msPerDay : Int := 24 * 60 * 60 * 1000

/-- The `todayMidnight` computation: `new Date()` at instant `now`,
`setHours(0,0,0,0)` in a local clock running `tzOffset` ms ahead of UTC,
read back as an epoch instant. -/
def localMidnight (now tzOffset : Int) : Int :=
  now - (now + tzOffset) % msPerDay

/-- `daysToQuery = 120`. -/
def daysToQuery : Nat := 120

/-- `chunkSize = 30`. -/
def chunkSize : Nat := 30

/-- The header loop `for (offset = 0; offset < daysToQuery; offset += chunkSize)`
unrolled with fuel (the loop body runs at most `days` times once `chunk ≥ 1`). -/
def chunkOffsetsGo (chunk days : Nat) : Nat → Nat → List Nat
  | _, 0 => []
  | offset, fuel + 1 =>
    if offset < days then offset :: chunkOffsetsGo chunk days (offset + chunk) fuel
    else []

/-- The sequence of `offset` values the chunking loop iterates over. -/
def chunkOffsets (chunk days : Nat) : List Nat :=
  chunkOffsetsGo chunk days 0 (days + 1)

/-- The `(startDateFrom, startDateTo)` window of each `fetchMeetings` call
issued by one poll cycle. -/
def fetchWindows (now : Int) : List (Int × Int) :=
  (chunkOffsets chunkSize daysToQuery).map fun offset =>
    (now + (offset : Int) * msPerDay, now + ((offset : Int) + chunkSize) * msPerDay)

/-- The per-meeting predicate of the `newMeetings` filter:
`m.createdDate >= todayMidnightMs && !notifiedAppointments.has(m.id)`. -/
def cycleFilter (cutoff : Int) (notified : Finset Nat) (m : BuilderPrimeMeeting) : Bool :=
  decide (cutoff ≤ m.createdDate) && !(decide (m.id ∈ notified))

/-- The `newMeetings` list of a cycle: the aggregated fetch results filtered
by creation date and the dedup set. -/
def newMeetings (fetched : List BuilderPrimeMeeting) (cutoff : Int)
    (notified : Finset Nat) : List BuilderPrimeMeeting :=
  fetched.filter (cycleFilter cutoff notified)

/-- Environment of one poll cycle: the aggregated `allMeetings` the chunked
fetches produced, the midnight cutoff of that cycle, and the sink behavior
(the outcome `sendGroupMeMessage` has for each meeting's message). -/
structure CycleEnv where
  fetched : List BuilderPrimeMeeting
  cutoff : Int
  send : BuilderPrimeMeeting → SendOutcome

/-- What a cycle's delivery loop did: the dedup set afterwards, the ids for
which a notification was actually posted (`sent`), and the ids for which
`sendGroupMeMessage` was called at all. -/
structure DeliveryResult where
  notified : Finset Nat
  delivered : List Nat
  attempted : List Nat

/-- The `for (const meeting of newMeetings)` loop.  A `sent` or `skipped`
result reaches the `notifiedAppointments.add` line; a thrown delivery error
propagates to the cycle-level `catch`, so the loop stops and the failed
meeting's id is never added. -/
def runDeliveries (send : BuilderPrimeMeeting → SendOutcome) :
    List BuilderPrimeMeeting → Finset Nat → DeliveryResult
  | [], notified => ⟨notified, [], []⟩
  | m :: rest, notified =>
    match send m with
    | .threw => ⟨notified, [], [m.id]⟩
    | .skipped =>
      let r := runDeliveries send rest (insert m.id notified)
      ⟨r.notified, r.delivered, m.id :: r.attempted⟩
    | .sent =>
      let r := runDeliveries send rest (insert m.id notified)
      ⟨r.notified, m.id :: r.delivered, m.id :: r.attempted⟩

/-- One `pollForNewMeetings` cycle: filter the aggregated meetings, then run
the delivery loop against the dedup set. -/
def pollCycle (env : CycleEnv) (notified : Finset Nat) : DeliveryResult :=
  runDeliveries env.send (newMeetings env.fetched env.cutoff notified) notified

/-- A sequence of poll cycles within one process lifetime; the dedup set is
threaded through, the delivery/attempt logs are concatenated. -/
def runCycles : List CycleEnv → Finset Nat → DeliveryResult
  | [], notified => ⟨notified, [], []⟩
  | env :: rest, notified =>
    let r₁ := pollCycle env notified
    let r₂ := runCycles rest r₁.notified
    ⟨r₂.notified, r₁.delivered ++ r₂.delivered, r₁.attempted ++ r₂.attempted⟩

/-! ## Scheduler (`startPolling` / `stopPolling`) -/

/-- Observable scheduler state: the `isPolling` flag, whether a
`setInterval` timer for `pollForNewMeetings` is live, and how many poll
cycles have started. -/
structure PollerState where
  isPolling : Bool
  timerActive : Bool
  cyclesRun : Nat
  deriving DecidableEq

/-- `startPolling`: a no-op when already polling; otherwise set the flag,
run one immediate cycle, and register the interval timer (whose handle is
not retained anywhere). -/
def startPolling (st : PollerState) : PollerState :=
  if st.isPolling then st
  else { isPolling := true, timerActive := true, cyclesRun := st.cyclesRun + 1 }

/-- `stopPolling`: sets `isPolling = false` and logs; it does not touch the
interval timer (no `clearInterval` call exists in the module, and the
`setInterval` handle was discarded). -/
def stopPolling (st : PollerState) : PollerState :=
  { st with isPolling := false }

/-- One interval tick: while a timer is live, the runtime invokes
`pollForNewMeetings`, whose body never consults `isPolling`. -/
def intervalTick (st : PollerState) : PollerState :=
  if st.timerActive then { st with cyclesRun := st.cyclesRun + 1 } else st

/-! ## Helper lemmas about the cycle model -/

/-- The dedup set after inserting the ids of a meeting list, in order. -/
def insertAll (ms : List BuilderPrimeMeeting) (s : Finset Nat) : Finset Nat :=
  ms.foldl (fun acc m => insert m.id acc) s

theorem insertAll_cons (m : BuilderPrimeMeeting) (ms : List BuilderPrimeMeeting)
    (s : Finset Nat) : insertAll (m :: ms) s = insertAll ms (insert m.id s) := rfl

theorem mem_insertAll {i : Nat} (ms : List BuilderPrimeMeeting) (s : Finset Nat) :
    i ∈ insertAll ms s ↔ i ∈ ms.map (·.id) ∨ i ∈ s := by
  induction ms generalizing s with
  | nil => simp [insertAll]
  | cons m rest ih =>
    rw [insertAll_cons, ih, List.map_cons, List.mem_cons, Finset.mem_insert]
    tauto

theorem cycleFilter_eq_true {cutoff : Int} {notified : Finset Nat}
    {m : BuilderPrimeMeeting} :
    cycleFilter cutoff notified m = true ↔ cutoff ≤ m.createdDate ∧ m.id ∉ notified := by
  simp [cycleFilter]

theorem mem_newMeetings {fetched : List BuilderPrimeMeeting} {cutoff : Int}
    {notified : Finset Nat} {m : BuilderPrimeMeeting} :
    m ∈ newMeetings fetched cutoff notified ↔
      m ∈ fetched ∧ cutoff ≤ m.createdDate ∧ m.id ∉ notified := by
  simp [newMeetings, List.mem_filter, cycleFilter_eq_true]

theorem newMeetings_map_sublist (fetched : List BuilderPrimeMeeting) (cutoff : Int)
    (notified : Finset Nat) :
    List.Sublist ((newMeetings fetched cutoff notified).map (·.id))
      (fetched.map (·.id)) :=
  (List.filter_sublist fetched).map (·.id)

theorem runDeliveries_notified_mono (send : BuilderPrimeMeeting → SendOutcome)
    (ms : List BuilderPrimeMeeting) (s : Finset Nat) :
    s ⊆ (runDeliveries send ms s).notified := by
  induction ms generalizing s with
  | nil => exact Finset.Subset.refl s
  | cons m rest ih =>
    show s ⊆ (runDeliveries send (m :: rest) s).notified
    unfold runDeliveries
    cases send m with
    | threw => exact Finset.Subset.refl s
    | skipped => exact (Finset.subset_insert m.id s).trans (ih (insert m.id s))
    | sent => exact (Finset.subset_insert m.id s).trans (ih (insert m.id s))

theorem mem_notified_of_mem_delivered (send : BuilderPrimeMeeting → SendOutcome)
    (ms : List BuilderPrimeMeeting) (s : Finset Nat) {i : Nat} :
    i ∈ (runDeliveries send ms s).delivered →
      i ∈ (runDeliveries send ms s).notified := by
  induction ms generalizing s with
  | nil => intro h; simp [runDeliveries] at h
  | cons m rest ih =>
    intro h
    rcases hs : send m with _ | _ | _ <;> simp [runDeliveries, hs] at h ⊢
    · rcases h with h | h
      · subst h
        exact runDeliveries_notified_mono send rest (insert m.id s)
          (Finset.mem_insert_self m.id s)
      · exact ih (insert m.id s) h
    · exact ih (insert m.id s) h

theorem delivered_sublist (send : BuilderPrimeMeeting → SendOutcome)
    (ms : List BuilderPrimeMeeting) (s : Finset Nat) :
    List.Sublist (runDeliveries send ms s).delivered (ms.map (·.id)) := by
  induction ms generalizing s with
  | nil => simp [runDeliveries]
  | cons m rest ih =>
    rcases hs : send m with _ | _ | _ <;>
      simp only [runDeliveries, hs, List.map_cons]
    · exact (ih (insert m.id s)).cons₂ m.id
    · exact (ih (insert m.id s)).cons m.id
    · exact List.nil_sublist _

theorem attempted_sublist (send : BuilderPrimeMeeting → SendOutcome)
    (ms : List BuilderPrimeMeeting) (s : Finset Nat) :
    List.Sublist (runDeliveries send ms s).attempted (ms.map (·.id)) := by
  induction ms generalizing s with
  | nil => simp [runDeliveries]
  | cons m rest ih =>
    rcases hs : send m with _ | _ | _ <;>
      simp only [runDeliveries, hs, List.map_cons]
    · exact (ih (insert m.id s)).cons₂ m.id
    · exact (ih (insert m.id s)).cons₂ m.id
    · exact (List.nil_sublist _).cons₂ m.id

theorem pollCycle_notified_mono (env : CycleEnv) (s : Finset Nat) :
    s ⊆ (pollCycle env s).notified :=
  runDeliveries_notified_mono env.send _ s

theorem pollCycle_delivered_not_mem (env : CycleEnv) (s : Finset Nat) {i : Nat}
    (h : i ∈ (pollCycle env s).delivered) : i ∉ s := by
  have hsub : List.Sublist (pollCycle env s).delivered
      ((newMeetings env.fetched env.cutoff s).map (·.id)) :=
    delivered_sublist env.send (newMeetings env.fetched env.cutoff s) s
  have hmem := hsub.subset h
  rcases List.mem_map.mp hmem with ⟨m, hm, rfl⟩
  exact (mem_newMeetings.mp hm).2.2

theorem pollCycle_delivered_mem_notified (env : CycleEnv) (s : Finset Nat) {i : Nat}
    (h : i ∈ (pollCycle env s).delivered) : i ∈ (pollCycle env s).notified :=
  mem_notified_of_mem_delivered env.send _ s h

theorem runCycles_notified_mono (envs : List CycleEnv) (s : Finset Nat) :
    s ⊆ (runCycles envs s).notified := by
  induction envs generalizing s with
  | nil => exact Finset.Subset.refl s
  | cons env rest ih =>
    exact (pollCycle_notified_mono env s).trans (ih (pollCycle env s).notified)

/-- An id already in the dedup set is never delivered by any later cycle:
the filter of every cycle removes it before the delivery loop runs. -/
theorem not_delivered_of_mem_notified (envs : List CycleEnv) (s : Finset Nat)
    {i : Nat} (h : i ∈ s) : i ∉ (runCycles envs s).delivered := by
  induction envs generalizing s with
  | nil => simp [runCycles]
  | cons env rest ih =>
    show i ∉ ((runCycles (env :: rest) s).delivered)
    unfold runCycles
    intro hmem
    rcases List.mem_append.mp hmem with hmem | hmem
    · exact pollCycle_delivered_not_mem env s hmem h
    · exact ih (pollCycle env s).notified (pollCycle_notified_mono env s h) hmem

theorem runCycles_cons (env : CycleEnv) (envs : List CycleEnv) (s : Finset Nat) :
    runCycles (env :: envs) s =
      ⟨(runCycles envs (pollCycle env s).notified).notified,
       (pollCycle env s).delivered ++ (runCycles envs (pollCycle env s).notified).delivered,
       (pollCycle env s).attempted
         ++ (runCycles envs (pollCycle env s).notified).attempted⟩ := rfl

theorem runCycles_count_eq_zero (envs : List CycleEnv) (s : Finset Nat) {i : Nat}
    (h : i ∈ s) : (runCycles envs s).delivered.count i = 0 :=
  List.count_eq_zero.mpr (not_delivered_of_mem_notified envs s h)

theorem pollCycle_delivered_nodup (env : CycleEnv) (s : Finset Nat)
    (h : (env.fetched.map (·.id)).Nodup) : (pollCycle env s).delivered.Nodup :=
  ((h.sublist (newMeetings_map_sublist env.fetched env.cutoff s)).sublist
    (delivered_sublist env.send (newMeetings env.fetched env.cutoff s) s))

/-- The main at-most-once induction: when every cycle aggregates each id at
most once, the whole run delivers each id at most once. -/
theorem runCycles_count_le_one (envs : List CycleEnv) (s : Finset Nat) (i : Nat)
    (h : ∀ env ∈ envs, (env.fetched.map (·.id)).Nodup) :
    (runCycles envs s).delivered.count i ≤ 1 := by
  induction envs generalizing s with
  | nil => simp [runCycles]
  | cons env rest ih =>
    rw [runCycles_cons]
    show ((pollCycle env s).delivered
      ++ (runCycles rest (pollCycle env s).notified).delivered).count i ≤ 1
    rw [List.count_append]
    by_cases hd : i ∈ (pollCycle env s).delivered
    · have h2 : (runCycles rest (pollCycle env s).notified).delivered.count i = 0 :=
        runCycles_count_eq_zero _ _ (pollCycle_delivered_mem_notified env s hd)
      have h1 : (pollCycle env s).delivered.count i ≤ 1 :=
        List.nodup_iff_count_le_one.mp
          (pollCycle_delivered_nodup env s (h env (List.mem_cons_self _ _))) i
      omega
    · have h1 : (pollCycle env s).delivered.count i = 0 := List.count_eq_zero.mpr hd
      have h2 := ih (pollCycle env s).notified
        (fun e he => h e (List.mem_cons_of_mem _ he))
      omega

/-- When no delivery in the list throws, the loop reaches the end and the
dedup set has absorbed every id of the list. -/
theorem runDeliveries_no_throw (send : BuilderPrimeMeeting → SendOutcome)
    (ms : List BuilderPrimeMeeting) (s : Finset Nat)
    (h : ∀ m ∈ ms, send m ≠ .threw) :
    (runDeliveries send ms s).notified = insertAll ms s := by
  induction ms generalizing s with
  | nil => rfl
  | cons m rest ih =>
    have hm : send m ≠ .threw := h m (List.mem_cons_self _ _)
    have hrest : ∀ m' ∈ rest, send m' ≠ .threw :=
      fun m' hm' => h m' (List.mem_cons_of_mem _ hm')
    rcases hs : send m with _ | _ | _ <;>
      simp only [runDeliveries, hs, insertAll_cons]
    · exact ih (insert m.id s) hrest
    · exact ih (insert m.id s) hrest
    · exact absurd hs hm

/-- A thrown delivery stops the loop at the failing meeting: what ran is
exactly the non-throwing head segment, then the failed attempt. -/
theorem runDeliveries_abort (send : BuilderPrimeMeeting → SendOutcome)
    (pre rest : List BuilderPrimeMeeting) (X : BuilderPrimeMeeting) (s : Finset Nat)
    (hpre : ∀ m ∈ pre, send m ≠ .threw) (hX : send X = .threw) :
    runDeliveries send (pre ++ X :: rest) s =
      ⟨insertAll pre s,
       (pre.filter (fun m => send m == .sent)).map (·.id),
       pre.map (·.id) ++ [X.id]⟩ := by
  induction pre generalizing s with
  | nil => simp [runDeliveries, hX, insertAll]
  | cons m pre ih =>
    have hm : send m ≠ .threw := hpre m (List.mem_cons_self _ _)
    have hpre' : ∀ m' ∈ pre, send m' ≠ .threw :=
      fun m' hm' => hpre m' (List.mem_cons_of_mem _ hm')
    rcases hs : send m with _ | _ | _
    · simp [runDeliveries, hs, ih (insert m.id s) hpre', insertAll_cons,
        List.filter_cons, hs]
    · simp [runDeliveries, hs, ih (insert m.id s) hpre', insertAll_cons,
        List.filter_cons, hs]
    · exact absurd hs hm

/-! ## Claim C1: at-most-once notification -/

/-- A meeting record that one cycle's aggregation holds twice, as happens
when adjacent fetch windows (which share a boundary instant) both return
it: the filter runs before the loop, so both copies survive it. -/
def dupMeeting : BuilderPrimeMeeting :=
  ⟨1, "Jane Doe - Estimate", 0, 5, "Eve", "Lopez", none, none, "Estimate", none, 9, 7⟩

/-- A cycle that aggregated `dupMeeting` twice, with a sink that accepts
every message. -/
def dupCycleEnv : CycleEnv := ⟨[dupMeeting, dupMeeting], 0, fun _ => .sent⟩

/-- C1 counterexample: unconditional at-most-once delivery fails.  A cycle
whose aggregated fetch list contains the same meeting id twice delivers it
twice: the dedup filter was evaluated before the loop, and the insertion
after the first delivery does not re-filter the list. -/
theorem at_most_once_cex :
    ¬ ∀ (envs : List CycleEnv) (i : Nat), (runCycles envs ∅).delivered.count i ≤ 1 := by
  intro hclaim
  have heval : (runCycles [dupCycleEnv] ∅).delivered = [1, 1] := by decide
  have h := hclaim [dupCycleEnv] 1
  rw [heval] at h
  exact absurd h (by decide)

/-- C1 (amended): provided each cycle's aggregated fetch list holds every
meeting id at most once, any id is notified at most once across the whole
sequence of poll cycles of a process lifetime — the cycle filter excludes
ids already in the dedup set, and a successfully delivered id is in the set
for all subsequent cycles. -/
theorem at_most_once_delivery (envs : List CycleEnv) (i : Nat)
    (h : ∀ env ∈ envs, (env.fetched.map (·.id)).Nodup) :
    (runCycles envs ∅).delivered.count i ≤ 1 :=
  runCycles_count_le_one envs ∅ i h

/-- A cycle returning `dupMeeting` once, used to instantiate the amended
at-most-once theorem over two identical cycles. -/
def repeatEnv : CycleEnv := ⟨[dupMeeting], 0, fun _ => .sent⟩

theorem at_most_once_delivery_witness :
    (runCycles [repeatEnv, repeatEnv] ∅).delivered.count 1 ≤ 1 :=
  at_most_once_delivery [repeatEnv, repeatEnv] 1 (by decide)

/-! ## Claim C2: scope of a delivery failure -/

/-- First meeting of the failure cycle; its delivery throws. -/
def failMeetingA : BuilderPrimeMeeting :=
  ⟨1, "Ann Ake - Estimate", 0, 5, "Eve", "Lopez", none, none, "Estimate", none, 11, 21⟩

/-- Second meeting of the failure cycle; its delivery would succeed. -/
def failMeetingB : BuilderPrimeMeeting :=
  ⟨2, "Bob Oak - Estimate", 0, 5, "Eve", "Lopez", none, none, "Estimate", none, 12, 22⟩

/-- A cycle fetching both meetings, whose sink throws on the first message
and accepts the second. -/
def failEnv : CycleEnv :=
  ⟨[failMeetingA, failMeetingB], 0, fun m => if m.id = 1 then .threw else .sent⟩

/-- C2 counterexample: a delivery failure does abort the rest of the cycle.
Meeting 2 passed the filter of a cycle in which meeting 1's delivery threw,
yet meeting 2 was never attempted or delivered in that cycle (only the
failed attempt for meeting 1 happened). -/
theorem delivery_failure_cex :
    failEnv.send failMeetingA = .threw
    ∧ failMeetingB ∈ newMeetings failEnv.fetched failEnv.cutoff ∅
    ∧ (pollCycle failEnv ∅).delivered = []
    ∧ (pollCycle failEnv ∅).attempted = [1] := by decide

/-- C2 (amended): when delivery throws for meeting X of a cycle, X's id is
not inserted into the dedup set, so X passes any later cycle's filter again
whenever the source still returns it and its creation date still meets that
cycle's cutoff; however the failure aborts the cycle: the meetings after X
in the filtered list are not attempted in that cycle. -/
theorem delivery_failure_scope (env : CycleEnv) (s : Finset Nat)
    (pre rest : List BuilderPrimeMeeting) (X : BuilderPrimeMeeting)
    (hsplit : newMeetings env.fetched env.cutoff s = pre ++ X :: rest)
    (hpre : ∀ m ∈ pre, env.send m ≠ .threw)
    (hX : env.send X = .threw)
    (hnd : ((pre ++ X :: rest).map (·.id)).Nodup) :
    X.id ∉ (pollCycle env s).notified
    ∧ (∀ m ∈ rest, m.id ∉ (pollCycle env s).attempted)
    ∧ ∀ (fetched₂ : List BuilderPrimeMeeting) (cutoff₂ : Int),
        X ∈ fetched₂ → cutoff₂ ≤ X.createdDate →
        X ∈ newMeetings fetched₂ cutoff₂ (pollCycle env s).notified := by
  have hXmem : X ∈ newMeetings env.fetched env.cutoff s := by
    rw [hsplit]; exact List.mem_append_right _ (List.mem_cons_self _ _)
  have hXs : X.id ∉ s := (mem_newMeetings.mp hXmem).2.2
  have hpoll : pollCycle env s = runDeliveries env.send (pre ++ X :: rest) s := by
    unfold pollCycle; rw [hsplit]
  rw [List.map_append, List.map_cons] at hnd
  obtain ⟨-, hnd2, hdisj⟩ := List.nodup_append.mp hnd
  rw [List.nodup_cons] at hnd2
  obtain ⟨hXrest, -⟩ := hnd2
  have hXpre : X.id ∉ pre.map (·.id) :=
    fun hmem => hdisj hmem (List.mem_cons_self _ _)
  have hnotif : X.id ∉ (pollCycle env s).notified := by
    rw [hpoll, runDeliveries_abort env.send pre rest X s hpre hX]
    intro hmem
    rcases (mem_insertAll pre s).mp hmem with hmem | hmem
    · exact hXpre hmem
    · exact hXs hmem
  refine ⟨hnotif, ?_, ?_⟩
  · intro m hm
    rw [hpoll, runDeliveries_abort env.send pre rest X s hpre hX]
    intro hmem
    have hmrest : m.id ∈ rest.map (·.id) := List.mem_map_of_mem _ hm
    rcases List.mem_append.mp hmem with hmem | hmem
    · exact hdisj hmem (List.mem_cons_of_mem _ hmrest)
    · have heq : m.id = X.id := List.mem_singleton.mp hmem
      rw [heq] at hmrest
      exact hXrest hmrest
  · intro fetched₂ cutoff₂ hf hc
    exact mem_newMeetings.mpr ⟨hf, hc, hnotif⟩

/-- Instantiation of the failure-scope theorem on the concrete failure
cycle: meeting 1 stays out of the dedup set, meeting 2 is not attempted,
and meeting 1 passes the filter of a following cycle that returns it. -/
theorem delivery_failure_scope_witness :
    failMeetingA.id ∉ (pollCycle failEnv ∅).notified
    ∧ failMeetingB.id ∉ (pollCycle failEnv ∅).attempted
    ∧ failMeetingA ∈ newMeetings [failMeetingA] 0 (pollCycle failEnv ∅).notified := by
  have h := delivery_failure_scope failEnv ∅ [] [failMeetingB] failMeetingA
    (by decide) (by simp) (by decide) (by decide)
  exact ⟨h.1, h.2.1 failMeetingB (List.mem_cons_self _ _),
    h.2.2 [failMeetingA] 0 (List.mem_cons_self _ _) (by decide)⟩

/-! ## Claim C3: creation-date filter -/

/-- C3: the `todayMidnight` cutoff is midnight of the current day in the
process's local clock (at or before `now`, less than a day before it, and on
a local day boundary), and a not-yet-notified meeting passes the cycle's
filter exactly when `createdDate` is at or after that cutoff; the meeting's
`startDateTime` is irrelevant to the filter; the boundary cases — created
yesterday 23:59 versus created today 00:00 exactly — fall on the stated
sides. -/
theorem creation_filter_midnight (now tzOffset : Int) (notified : Finset Nat)
    (m : BuilderPrimeMeeting) (hm : m.id ∉ notified) :
    (localMidnight now tzOffset ≤ now
      ∧ now < localMidnight now tzOffset + msPerDay
      ∧ (localMidnight now tzOffset + tzOffset) % msPerDay = 0)
    ∧ (cycleFilter (localMidnight now tzOffset) notified m = true
        ↔ localMidnight now tzOffset ≤ m.createdDate)
    ∧ (∀ t : Int, cycleFilter (localMidnight now tzOffset) notified
        { m with startDateTime := t }
        = cycleFilter (localMidnight now tzOffset) notified m)
    ∧ (m.createdDate = localMidnight now tzOffset - 60000 →
        cycleFilter (localMidnight now tzOffset) notified m = false)
    ∧ (m.createdDate = localMidnight now tzOffset →
        cycleFilter (localMidnight now tzOffset) notified m = true) := by
  refine ⟨⟨?_, ?_, ?_⟩, ?_, fun t => rfl, ?_, ?_⟩
  · simp only [localMidnight, msPerDay]
    omega
  · simp only [localMidnight, msPerDay]
    omega
  · have hdecomp : localMidnight now tzOffset + tzOffset
        = msPerDay * ((now + tzOffset) / msPerDay) := by
      unfold localMidnight
      rw [Int.emod_def]
      ring
    rw [hdecomp]
    exact Int.mul_emod_right _ _
  · simp [cycleFilter, hm]
  · intro h
    simp [cycleFilter, hm, h]
  · intro h
    simp [cycleFilter, hm, h]

/-- Meeting whose creation instant is exactly the local midnight for the
clock reading 1700000000000 in UTC. -/
def midnightMeeting : BuilderPrimeMeeting :=
  ⟨5, "Kim Oh - Estimate", 0, localMidnight 1700000000000 0, "Eve", "Lopez",
    none, none, "Estimate", none, 13, 23⟩

theorem creation_filter_midnight_witness :
    cycleFilter (localMidnight 1700000000000 0) ∅ midnightMeeting = true :=
  (creation_filter_midnight 1700000000000 0 ∅ midnightMeeting
    (by decide)).2.2.2.2 rfl

/-! ## Claim C4: chunking of the fetch horizon -/

/-- The four fetch windows of a cycle, computed away from the loop. -/
theorem fetchWindows_eq (now : Int) :
    fetchWindows now =
      [(now, now + 30 * msPerDay),
       (now + 30 * msPerDay, now + 60 * msPerDay),
       (now + 60 * msPerDay, now + 90 * msPerDay),
       (now + 90 * msPerDay, now + 120 * msPerDay)] := by
  have hoff : chunkOffsets chunkSize daysToQuery = [0, 30, 60, 90] := by decide
  rw [fetchWindows, hoff]
  simp [chunkSize]

/-- C4: each poll cycle issues exactly 4 meeting-fetch calls; consecutive
windows are boundary-adjacent (each end instant equals the next start
instant); together they cover every instant of [now, now + 120 days]; and
each window spans at most 31 days. -/
theorem chunking_coverage (now : Int) :
    (fetchWindows now).length = 4
    ∧ ((fetchWindows now).getD 0 (0, 0)).2 = ((fetchWindows now).getD 1 (0, 0)).1
    ∧ ((fetchWindows now).getD 1 (0, 0)).2 = ((fetchWindows now).getD 2 (0, 0)).1
    ∧ ((fetchWindows now).getD 2 (0, 0)).2 = ((fetchWindows now).getD 3 (0, 0)).1
    ∧ (∀ t : Int, now ≤ t → t ≤ now + 120 * msPerDay →
        ∃ w ∈ fetchWindows now, w.1 ≤ t ∧ t ≤ w.2)
    ∧ (∀ w ∈ fetchWindows now, w.2 - w.1 ≤ 31 * msPerDay) := by
  rw [fetchWindows_eq]
  refine ⟨rfl, rfl, rfl, rfl, ?_, ?_⟩
  · intro t ht1 ht2
    rcases le_or_lt t (now + 30 * msPerDay) with h1 | h1
    · exact ⟨(now, now + 30 * msPerDay), by simp, ht1, h1⟩
    rcases le_or_lt t (now + 60 * msPerDay) with h2 | h2
    · exact ⟨(now + 30 * msPerDay, now + 60 * msPerDay), by simp, le_of_lt h1, h2⟩
    rcases le_or_lt t (now + 90 * msPerDay) with h3 | h3
    · exact ⟨(now + 60 * msPerDay, now + 90 * msPerDay), by simp, le_of_lt h2, h3⟩
    · exact ⟨(now + 90 * msPerDay, now + 120 * msPerDay), by simp, le_of_lt h3, ht2⟩
  · intro w hw
    simp only [List.mem_cons, List.not_mem_nil, or_false] at hw
    rcases hw with rfl | rfl | rfl | rfl <;> simp [msPerDay]

theorem chunking_coverage_witness :
    (fetchWindows 0).length = 4
    ∧ ∃ w ∈ fetchWindows 0, w.1 ≤ (86400000 : Int) ∧ (86400000 : Int) ≤ w.2 :=
  ⟨(chunking_coverage 0).1,
   (chunking_coverage 0).2.2.2.2.1 86400000 (by decide) (by decide)⟩

/-! ## Claim C5: staff attribution join key and fallback -/

/-- C5: lead-setter resolution for a meeting is keyed by the meeting's
`clientId`; when that lookup misses, or the matched record has a null
lead-setter first or last name, resolution returns no result and the
formatted message is built with the literal staff name "Unknown CSR"
instead of failing. -/
theorem staff_attribution_fallback (cache : List OpportunityData)
    (m : BuilderPrimeMeeting) (fmtDate fmtTime : Int → String)
    (h : cacheLookup cache m.clientId = none
      ∨ ∃ opp, cacheLookup cache m.clientId = some opp
          ∧ (opp.leadSetterFirstName = none ∨ opp.leadSetterLastName = none)) :
    lookupLeadSetter cache m.clientId = none
    ∧ formatMeetingMessage fmtDate fmtTime cache m =
        messageTemplate "Unknown CSR" (customerName m)
          (fmtDate m.startDateTime) (fmtTime m.startDateTime)
          m.meetingTypeName m.location := by
  have hnone : lookupLeadSetter cache m.clientId = none := by
    rcases h with h | ⟨opp, hopp, hnull⟩
    · simp [lookupLeadSetter, h]
    · rcases hnull with hn | hn
      · simp [lookupLeadSetter, hopp, hn]
      · rcases hfst : opp.leadSetterFirstName with _ | f <;>
          simp [lookupLeadSetter, hopp, hn, hfst]
  exact ⟨hnone, by simp [formatMeetingMessage, csrName, hnone]⟩

/-- A roster record carrying a full lead-setter name but stored under the
meeting's `opportunityId`, not its `clientId`. -/
def oppKeyedRecord : OpportunityData :=
  ⟨99, "Jane", "Doe", some "Sam", some "Lee", none, none⟩

/-- A meeting whose `clientId` (7) differs from its `opportunityId` (99). -/
def joinMeeting : BuilderPrimeMeeting :=
  ⟨42, "Jane Doe - Estimate", 0, 5, "Eve", "Lopez", some "Jane", some "Doe",
    "Estimate", none, 99, 7⟩

/-- Instantiation of the attribution-fallback theorem: even though a record
with a full lead-setter name sits under the meeting's `opportunityId`, the
`clientId`-keyed lookup misses and the message falls back to "Unknown CSR". -/
theorem staff_attribution_fallback_witness :
    lookupLeadSetter [oppKeyedRecord] joinMeeting.clientId = none
    ∧ formatMeetingMessage (fun _ => "D") (fun _ => "T") [oppKeyedRecord] joinMeeting =
        messageTemplate "Unknown CSR" (customerName joinMeeting) "D" "T"
          joinMeeting.meetingTypeName joinMeeting.location :=
  staff_attribution_fallback [oppKeyedRecord] joinMeeting (fun _ => "D") (fun _ => "T")
    (Or.inl (by decide))

/-! ## Claim C6: roster refresh failure -/

/-- The cache entry present before the failed refresh. -/
def staleOpp : OpportunityData :=
  ⟨7, "Jane", "Doe", some "Sam", some "Lee", none, none⟩

/-- Resolver state holding `staleOpp`, last refreshed at instant 0. -/
def staleResolver : ResolverState := ⟨[staleOpp], 0⟩

/-- C6 counterexample: when the roster fetch of a due refresh fails, the
previously cached mapping is NOT left in place — `clear()` runs first and
the empty fetch result repopulates nothing, so the entry for client 7 that
the old cache resolved is gone and the resolve call returns no result. -/
theorem roster_refresh_failure_cex :
    shouldRefresh (CACHE_DURATION_MS + 1) staleResolver.lastFetch = true
    ∧ lookupLeadSetter staleResolver.cache 7 = some ("Sam", "Lee")
    ∧ (fetchLeadSetter staleResolver (CACHE_DURATION_MS + 1) none 7).1.cache = []
    ∧ (fetchLeadSetter staleResolver (CACHE_DURATION_MS + 1) none 7).2 = none := by
  decide

/-- C6 (amended): a failed roster fetch during a due refresh propagates no
exception (the fetch step itself yields an empty roster), but it does not
preserve the old cache: the mapping is replaced by the empty one — every
previous entry is removed — the refresh timestamp is still advanced to
`now`, and the resolve call answers from the emptied cache, returning no
resolution. -/
theorem roster_refresh_failure (st : ResolverState) (now : Int) (clientId : Nat)
    (h : shouldRefresh now st.lastFetch = true) :
    fetchLeadSetter st now none clientId = (⟨[], now⟩, none) := by
  simp [fetchLeadSetter, h, fetchOpportunities, lookupLeadSetter, cacheLookup]

theorem roster_refresh_failure_witness :
    fetchLeadSetter staleResolver (CACHE_DURATION_MS + 1) none 7 = (⟨[], CACHE_DURATION_MS + 1⟩, none) :=
  roster_refresh_failure staleResolver (CACHE_DURATION_MS + 1) 7 (by decide)

/-! ## Claim C7: cache TTL boundary -/

/-- Fresh roster data that a refresh at the exact TTL boundary would have
loaded, had the boundary been inclusive. -/
def freshOpp : OpportunityData :=
  ⟨7, "Jane", "Doe", some "Ana", some "Ruiz", none, none⟩

/-- C7 counterexample: at `now - lastRefresh = TTL` exactly, the claim's
"re-fetch iff `now - lastRefresh >= TTL`" demands a refresh, but the code's
strict `>` comparison skips it: the state (cache and timestamp) is returned
unchanged even though fresh data was available. -/
theorem cache_ttl_cex :
    CACHE_DURATION_MS - staleResolver.lastFetch ≥ CACHE_DURATION_MS
    ∧ shouldRefresh CACHE_DURATION_MS staleResolver.lastFetch = false
    ∧ (fetchLeadSetter staleResolver CACHE_DURATION_MS (some [freshOpp]) 7).1
        = staleResolver := by
  decide

/-- C7 (amended): a resolve call re-fetches and replaces the mapping if and
only if `now - lastRefresh` strictly exceeds the 5-minute TTL; in
particular a call at `lastRefresh + TTL - 1ms` does not trigger a re-fetch
and a call at `lastRefresh + TTL + 1ms` does. -/
theorem cache_ttl_boundary (st : ResolverState) (now : Int)
    (fetchResult : Option (List OpportunityData)) (clientId : Nat) :
    (now - st.lastFetch > CACHE_DURATION_MS →
      (fetchLeadSetter st now fetchResult clientId).1
        = ⟨fetchOpportunities fetchResult, now⟩)
    ∧ (¬ now - st.lastFetch > CACHE_DURATION_MS →
      (fetchLeadSetter st now fetchResult clientId).1 = st)
    ∧ shouldRefresh (st.lastFetch + CACHE_DURATION_MS - 1) st.lastFetch = false
    ∧ shouldRefresh (st.lastFetch + CACHE_DURATION_MS + 1) st.lastFetch = true := by
  refine ⟨?_, ?_, ?_, ?_⟩
  · intro h
    simp [fetchLeadSetter, shouldRefresh, h]
  · intro h
    simp [fetchLeadSetter, shouldRefresh, h]
  · simp [shouldRefresh, CACHE_DURATION_MS]
    omega
  · simp [shouldRefresh, CACHE_DURATION_MS]
    omega

theorem cache_ttl_boundary_witness :
    (fetchLeadSetter staleResolver (CACHE_DURATION_MS + 1) (some [freshOpp]) 7).1
      = ⟨[freshOpp], CACHE_DURATION_MS + 1⟩
    ∧ (fetchLeadSetter staleResolver (CACHE_DURATION_MS - 1) (some [freshOpp]) 7).1
      = staleResolver :=
  ⟨(cache_ttl_boundary staleResolver (CACHE_DURATION_MS + 1) (some [freshOpp]) 7).1
      (by decide),
   (cache_ttl_boundary staleResolver (CACHE_DURATION_MS - 1) (some [freshOpp]) 7).2.1
      (by decide)⟩

/-! ## Claim C8: stop and the schedule -/

/-- The process's scheduler state before any start. -/
def idlePoller : PollerState := ⟨false, false, 0⟩

/-- C8 (code evaluation at the failing input): after `startPolling` then
`stopPolling`, the `isPolling` flag is cleared but the interval timer is
still live — no `clearInterval` exists and the handle was discarded — so
the next interval tick still starts a poll cycle, contradicting the claim
that no future cycle ever starts. -/
theorem stop_does_not_cancel_schedule :
    (stopPolling (startPolling idlePoller)).isPolling = false
    ∧ (stopPolling (startPolling idlePoller)).timerActive = true
    ∧ (intervalTick (stopPolling (startPolling idlePoller))).cyclesRun
        = (stopPolling (startPolling idlePoller)).cyclesRun + 1 := by
  decide

/-! ## Claim C9: formatter customer-name fallback -/

theorem append_space_ne_empty (f l : String) : f ++ " " ++ l ≠ "" := by
  intro h
  have hlen : (f ++ " " ++ l).length = 0 := by rw [h]; rfl
  have hone : (" " : String).length = 1 := rfl
  rw [String.length_append, String.length_append, hone] at hlen
  omega

/-- Meeting with no client names and a blank title. -/
def blankTitleMeeting : BuilderPrimeMeeting :=
  ⟨3, "", 0, 5, "Eve", "Lopez", none, none, "Estimate", none, 14, 24⟩

/-- Meeting whose first-name field is present but empty. -/
def emptyNameMeeting : BuilderPrimeMeeting :=
  ⟨4, "Pat Lam - Estimate", 0, 5, "Eve", "Lopez", some "", some "Doe",
    "Estimate", none, 15, 25⟩

/-- C9 counterexample: the formatted customer name can be left blank — with
no client names and an empty title it is the empty string — and a
present-but-empty first name falls back to the title instead of the
first/last concatenation. -/
theorem formatter_fallback_cex :
    customerName blankTitleMeeting = ""
    ∧ emptyNameMeeting.clientFirstName = some ""
    ∧ emptyNameMeeting.clientLastName = some "Doe"
    ∧ customerName emptyNameMeeting = "Pat Lam" := by
  decide

/-- C9 (amended): the formatted customer name is
`clientFirstName ++ " " ++ clientLastName` when both fields are present and
non-empty; otherwise it is the title with the first " - Estimate"
occurrence removed and the first remaining " - " separator collapsed to a
single space (title "Jane Doe - Estimate" yields "Jane Doe"); it is blank
only in the fallback case, when the stripped title itself is blank. -/
theorem formatter_fallback (m : BuilderPrimeMeeting) :
    (∀ f l, m.clientFirstName = some f → m.clientLastName = some l →
      f ≠ "" → l ≠ "" → customerName m = f ++ " " ++ l)
    ∧ (strTruthy m.clientFirstName = false ∨ strTruthy m.clientLastName = false →
        customerName m = strippedTitle m.title)
    ∧ strippedTitle "Jane Doe - Estimate" = "Jane Doe"
    ∧ (customerName m = "" → strippedTitle m.title = "") := by
  refine ⟨?_, ?_, by decide, ?_⟩
  · intro f l hf hl hfne hlne
    simp [customerName, strTruthy, hf, hl, hfne, hlne]
  · intro h
    rcases h with h | h <;> simp [customerName, h]
  · intro h
    by_cases ht : (strTruthy m.clientFirstName && strTruthy m.clientLastName) = true
    · exfalso
      rw [customerName, if_pos ht] at h
      rcases hf : m.clientFirstName with _ | f
      · rw [hf] at ht; simp [strTruthy] at ht
      rcases hl : m.clientLastName with _ | l
      · rw [hl] at ht; simp [strTruthy] at ht
      rw [hf, hl] at h
      simp [Option.getD] at h
      exact append_space_ne_empty f l h
    · rw [customerName, if_neg ht] at h
      exact h

/-- Meeting matching the spec's fallback example: null names, title
"Jane Doe - Estimate". -/
def janeMeeting : BuilderPrimeMeeting :=
  ⟨6, "Jane Doe - Estimate", 0, 5, "Eve", "Lopez", none, none,
    "Estimate", none, 16, 26⟩

theorem formatter_fallback_witness : customerName janeMeeting = "Jane Doe" := by
  have h := formatter_fallback janeMeeting
  rw [h.2.1 (Or.inl (by decide))]
  exact h.2.2.1

/-! ## Claim C10: skipped delivery still marks the meeting notified -/

/-- C10: with an unconfigured (absent or placeholder) bot id,
`sendGroupMeMessage` returns a skipped result without throwing; the poll
loop then inserts the meeting's id into the dedup set exactly as for a
successful delivery, so the meeting is never delivered in any later cycle
of the process lifetime, even after the sink becomes configured. -/
theorem skipped_delivery_marks_notified (botId : Option String)
    (netOk : BuilderPrimeMeeting → Bool) (env : CycleEnv) (s : Finset Nat)
    (m : BuilderPrimeMeeting)
    (hb : isPlaceholderBot botId = true)
    (hsend : env.send = fun m' => sendGroupMeMessage botId (netOk m'))
    (hm : m ∈ newMeetings env.fetched env.cutoff s) :
    env.send m = .skipped
    ∧ m.id ∈ (pollCycle env s).notified
    ∧ ∀ envs : List CycleEnv,
        m.id ∉ (runCycles envs (pollCycle env s).notified).delivered := by
  have hskip : ∀ m', env.send m' = .skipped := by
    intro m'
    rw [hsend]
    simp [sendGroupMeMessage, hb]
  have hnothrow : ∀ m' ∈ newMeetings env.fetched env.cutoff s,
      env.send m' ≠ .threw := by
    intro m' _
    rw [hskip m']
    simp
  have hnotif : m.id ∈ (pollCycle env s).notified := by
    unfold pollCycle
    rw [runDeliveries_no_throw env.send _ s hnothrow]
    exact (mem_insertAll _ s).mpr (Or.inl (List.mem_map_of_mem _ hm))
  exact ⟨hskip m, hnotif, fun envs => not_delivered_of_mem_notified envs _ hnotif⟩

/-- Meeting processed while the sink is unconfigured. -/
def skipMeeting : BuilderPrimeMeeting :=
  ⟨8, "Sam Po - Estimate", 0, 5, "Eve", "Lopez", none, none,
    "Estimate", none, 17, 27⟩

/-- Cycle whose sink call runs with no bot id configured. -/
def skipEnv : CycleEnv :=
  ⟨[skipMeeting], 0, fun _ => sendGroupMeMessage none true⟩

/-- A later cycle returning the same meeting with a working, configured
sink. -/
def configuredEnv : CycleEnv := ⟨[skipMeeting], 0, fun _ => .sent⟩

theorem skipped_delivery_marks_notified_witness :
    skipEnv.send skipMeeting = .skipped
    ∧ skipMeeting.id ∈ (pollCycle skipEnv ∅).notified
    ∧ skipMeeting.id ∉
        (runCycles [configuredEnv] (pollCycle skipEnv ∅).notified).delivered := by
  have h := skipped_delivery_marks_notified none (fun _ => true) skipEnv ∅
    skipMeeting (by decide) rfl (by decide)
  exact ⟨h.1, h.2.1, h.2.2 [configuredEnv]⟩

end GroupMeAutomation
